import Mathlib

/-!
Shallow embedding of the data-acquisition and cleaning pipeline of
`src/Guia_Practica1_Gilson_Tenemea.py` (a Streamlit dashboard over the
Ecuadorian public-procurement open-data API).

The embedded parts are:

* `load_data` (source lines 132-202): the paginated, rate-limited HTTP
  client with a retry-on-429 loop.  The HTTP server is modelled as an
  oracle `S : Nat → Nat → AttemptResp` giving, for every page number and
  attempt index, either a connection-level exception or a response with a
  status code and a parsed JSON body (`none` when the body is not valid
  JSON, in which case `response.json()` raises).  Side effects
  (`time.sleep`, `st.warning`, `st.error`, each HTTP request) are recorded
  in an event trace; sleep durations are recorded in tenths of a second,
  so `sleep 50` is `time.sleep(5)` and `sleep 15` is `time.sleep(1.5)`.
* the module-level cleaning pipeline (source lines 243-258):
  `pd.to_numeric` on `Monto`, column renaming, `dropna` on
  `Monto`/`Tipo_Contratacion`, and `drop_duplicates` on `ID` keeping the
  first occurrence.
* the gate on the filter button (source lines 205-211).

Library calls are embedded as follows: `pd.to_datetime(-, errors="coerce")`
is parameterised by a string-date parser `parse : String → Option Int`
(dates are timestamps; `none` is `NaT`); `pd.to_numeric(-, errors="coerce")`
parses integer literals (`none` is `NaN`; money amounts are embedded as
integers since no claim does arithmetic on them); `.str.title()` and
`.str.upper()` act character-wise as in Python, returning `none` (pandas
`NaN`) on non-string cells, as the pandas `.str` accessor does.
-/

/-- Scalar JSON value as stored in a dataframe cell.  `jnull` is both a
JSON `null` and the Python `None` that `dict.get` returns for a missing
key; `jother` stands for any other JSON value (array, object, boolean),
tagged so that distinct values stay distinguishable. -/
inductive JVal where
  | jnull
  | jstr (s : String)
  | jnum (n : Int)
  | jother (tag : Nat)
deriving DecidableEq

/-- One JSON record of the `data` array of a page, reduced to the fifteen
keys that `load_data` reads (source lines 172-189).  A key missing from
the JSON object is represented by `jnull`, because `item.get(k)` returns
`None` for it. -/
structure Item where
  id : JVal
  ocid : JVal
  date : JVal
  year : JVal
  month : JVal
  method : JVal
  internal_type : JVal
  buyer : JVal
  locality : JVal
  region : JVal
  suppliers : JVal
  amount : JVal
  title : JVal
  description : JVal
  budget : JVal
deriving DecidableEq

/-- A raw row as appended to `all_data` (source lines 173-189): the
fifteen fixed columns, not yet coerced. -/
structure Row where
  ID : JVal
  OCID : JVal
  Date : JVal
  Year : JVal
  Month : JVal
  Method : JVal
  TipoDeContratacion : JVal
  ProvinciaBuyer : JVal
  Localidad : JVal
  Region : JVal
  Proveedores : JVal
  Monto : JVal
  Titulo : JVal
  Descripcion : JVal
  Presupuesto : JVal
deriving DecidableEq

/-- The row built from one JSON record (source lines 173-189): column k
takes the value of the corresponding JSON field, missing fields becoming
null. -/
def itemToRow (i : Item) : Row :=
  { ID := i.id
    OCID := i.ocid
    Date := i.date
    Year := i.year
    Month := i.month
    Method := i.method
    TipoDeContratacion := i.internal_type
    ProvinciaBuyer := i.buyer
    Localidad := i.locality
    Region := i.region
    Proveedores := i.suppliers
    Monto := i.amount
    Titulo := i.title
    Descripcion := i.description
    Presupuesto := i.budget }

/-- Parsed JSON body of a page response.  `dataKey` is
`data_json.get("data", [])` (already defaulted to `[]` when the key is
missing); `pagesKey` is the raw `pages` field, `none` when missing. -/
structure PageJson where
  dataKey : List Item
  pagesKey : Option Nat
deriving DecidableEq

/-- The page count the code compares against: `data_json.get("pages", 1)`
(source line 192). -/
def PageJson.getPages (pj : PageJson) : Nat :=
  pj.pagesKey.getD 1

/-- What the server does on one HTTP attempt: either `requests.get`
raises a connection-level exception, or it returns a response with a
status code and a body (`none` when the body is not valid JSON). -/
inductive AttemptResp where
  | conn
  | resp (status : Nat) (body : Option PageJson)
deriving DecidableEq

/-- Observable side effects of `load_data`, in order.  `sleep` durations
are in tenths of a second: `sleep 50` is the 5 s wait on HTTP 429 (source
lines 152 and 158) and `sleep 15` is the 1.5 s pause between pages
(source line 195). -/
inductive Event where
  | request (page attempt : Nat)
  | warn429
  | sleep (tenths : Nat)
  | errorMsg
deriving DecidableEq

/-- Result of the `for intento in range(3)` retry loop for one page
(source lines 147-165).
`success body` : some attempt got a response that is neither 429 nor an
HTTP error, and `break` ran — `body` is the parsed JSON of that response.
`fellThrough body` : all three attempts got 429, the `for` loop was
exhausted without `break`, and control falls through to
`response.json()` with `response` still bound to the last 429 response.
`httpErr` : `raise_for_status` raised for a non-429 status and the
function returned an empty dataframe (source line 162).
`connErr` : `requests.get` raised and the function returned an empty
dataframe (source line 165). -/
inductive FetchOutcome where
  | success (body : Option PageJson)
  | fellThrough (body : Option PageJson)
  | httpErr
  | connErr
deriving DecidableEq

/-- The retry loop, from attempt `i` with `rem` attempts left.  `last`
carries the body of the most recent 429 response, which is what the code
keeps using when the loop is exhausted.  On a 429 the code warns, sleeps
5 s and retries (source lines 150-153); `raise_for_status` raises exactly
for statuses in [400, 600), which the handler turns into an error return
since the 429 case never reaches it (source lines 154-162); any other
exception also returns (source lines 163-165). -/
def fetch_retry (A : Nat → AttemptResp) (p : Nat) :
    Nat → Nat → Option PageJson → FetchOutcome × List Event
  | _, 0, last => (.fellThrough last, [])
  | i, rem + 1, _ =>
    match A i with
    | .conn => (.connErr, [.request p i, .errorMsg])
    | .resp st body =>
      if st = 429 then
        let r := fetch_retry A p (i + 1) rem body
        (r.1, .request p i :: .warn429 :: .sleep 50 :: r.2)
      else if 400 ≤ st ∧ st < 600 then
        (.httpErr, [.request p i, .errorMsg])
      else
        (.success body, [.request p i])

/-- One full page fetch: `for intento in range(3)` (source line 147). -/
def fetch_page (A : Nat → AttemptResp) (p : Nat) : FetchOutcome × List Event :=
  fetch_retry A p 0 3 none

/-- How the `while` loop of `load_data` ended.
`done rows` : control reached `df = pd.DataFrame(all_data)` (a `break`
or the `while` condition turning false) with `all_data = rows`.
`errEmpty` : one of the two `return pd.DataFrame()` statements ran.
`raised` : `response.json()` raised on a body that is not valid JSON and
the exception escaped `load_data` (it is outside the `try`). -/
inductive LoopResult where
  | done (rows : List Row)
  | errEmpty
  | raised
deriving DecidableEq

/-- The `while page <= max_pages` pagination loop of `load_data` (source
lines 142-195), with explicit fuel.  The fuel only realises the bound
`page ≤ maxPages` (the loop runs at most `maxPages` iterations because
`page` starts at 1 and increases by 1); the guard `maxPages < page` is
the negation of the `while` condition. -/
def load_data_loop (S : Nat → Nat → AttemptResp) (maxPages : Nat) :
    Nat → List Row → Nat → LoopResult × List Event
  | _, acc, 0 => (.done acc, [])
  | page, acc, fuel + 1 =>
    if maxPages < page then (.done acc, [])
    else
      let f := fetch_page (S page) page
      match f.1 with
      | .connErr => (.errEmpty, f.2)
      | .httpErr => (.errEmpty, f.2)
      | .success body | .fellThrough body =>
        match body with
        | none => (.raised, f.2)
        | some pj =>
          if pj.dataKey.isEmpty then (.done acc, f.2)
          else
            let acc2 := acc ++ pj.dataKey.map itemToRow
            if pj.getPages ≤ page then (.done acc2, f.2)
            else
              let r := load_data_loop S maxPages (page + 1) acc2 fuel
              (r.1, f.2 ++ .sleep 15 :: r.2)

/-- A row of the dataframe returned by `load_data` after the coercions of
source lines 199-201: `Date` is a datetime (`none` is `NaT`),
`TipoDeContratacion` and `ProvinciaBuyer` are the results of the pandas
`.str` accessor (`none` is `NaN`). -/
structure CRow where
  ID : JVal
  OCID : JVal
  Date : Option Int
  Year : JVal
  Month : JVal
  Method : JVal
  TipoDeContratacion : Option String
  ProvinciaBuyer : Option String
  Localidad : JVal
  Region : JVal
  Proveedores : JVal
  Monto : JVal
  Titulo : JVal
  Descripcion : JVal
  Presupuesto : JVal
deriving DecidableEq

/-- Character-wise model of Python `str.title()`: an alphabetic character
is uppercased when the previous character is not alphabetic and
lowercased otherwise; other characters pass through. -/
def pyTitleGo : Bool → List Char → List Char
  | _, [] => []
  | prev, c :: cs =>
    (if c.isAlpha then (if prev then c.toLower else c.toUpper) else c)
      :: pyTitleGo c.isAlpha cs

/-- Python `str.title()`. -/
def pyTitle (s : String) : String :=
  ⟨pyTitleGo false s.data⟩

/-- `pd.to_datetime(-, errors="coerce")` on one cell, parameterised by
the string-date parser: `null` and unparseable cells become `NaT`
(`none`), numbers are epoch offsets. -/
def pd_to_datetime (parse : String → Option Int) : JVal → Option Int
  | .jnull => none
  | .jstr s => parse s
  | .jnum n => some n
  | .jother _ => none

/-- `pd.to_numeric(-, errors="coerce")` on one cell: numbers stay,
numeric strings parse, everything else (null included) becomes `NaN`
(`none`). -/
def pd_to_numeric : JVal → Option Int
  | .jnum n => some n
  | .jstr s => s.toInt?
  | .jnull => none
  | .jother _ => none

/-- `.str.title()` on one cell of an object column: strings are
title-cased, any non-string cell becomes `NaN`. -/
def strTitleCell : JVal → Option String
  | .jstr s => some (pyTitle s)
  | _ => none

/-- `.str.upper()` on one cell of an object column. -/
def strUpperCell : JVal → Option String
  | .jstr s => some s.toUpper
  | _ => none

/-- The column coercions `load_data` applies to a non-empty dataframe
just before returning (source lines 199-201). -/
def coerceRow (parse : String → Option Int) (r : Row) : CRow :=
  { ID := r.ID
    OCID := r.OCID
    Date := pd_to_datetime parse r.Date
    Year := r.Year
    Month := r.Month
    Method := r.Method
    TipoDeContratacion := strTitleCell r.TipoDeContratacion
    ProvinciaBuyer := strUpperCell r.ProvinciaBuyer
    Localidad := r.Localidad
    Region := r.Region
    Proveedores := r.Proveedores
    Monto := r.Monto
    Titulo := r.Titulo
    Descripcion := r.Descripcion
    Presupuesto := r.Presupuesto }

/-- The value `load_data` produces: a dataframe (as its list of rows) or
an uncaught exception from `response.json()`. -/
inductive LoadResult where
  | frame (rows : List CRow)
  | raised
deriving DecidableEq

/-- Source lines 197-202: `df = pd.DataFrame(all_data)`, then the
coercions only when the dataframe is non-empty; the early
`return pd.DataFrame()` paths give an empty frame. -/
def finishFrame (parse : String → Option Int) : LoopResult → LoadResult
  | .done rows => .frame (if rows.isEmpty then [] else rows.map (coerceRow parse))
  | .errEmpty => .frame []
  | .raised => .raised

/-- `load_data` (source lines 132-202) over a server oracle `S` (page,
attempt index) and a date parser, with the default `max_pages=10`;
returns the resulting dataframe together with the event trace. -/
def load_data (S : Nat → Nat → AttemptResp) (parse : String → Option Int)
    (maxPages : Nat := 10) : LoadResult × List Event :=
  let r := load_data_loop S maxPages 1 [] maxPages
  (finishFrame parse r.1, r.2)

/-- A row of the cleaned dataframe: after `pd.to_numeric` on `Monto`
(source line 243) and the renaming of source lines 247-250
(`Provincia / Buyer` to `Provincia`, `Tipo de Contratación` to
`Tipo_Contratacion`). -/
structure CleanRow where
  ID : JVal
  OCID : JVal
  Date : Option Int
  Year : JVal
  Month : JVal
  Method : JVal
  Tipo_Contratacion : Option String
  Provincia : Option String
  Localidad : JVal
  Region : JVal
  Proveedores : JVal
  Monto : Option Int
  Titulo : JVal
  Descripcion : JVal
  Presupuesto : JVal
deriving DecidableEq

/-- Source lines 243-244 and 247-250 on one row: coerce `Monto` to
numeric and rename; `pd.to_datetime` on the already-datetime `Date`
column is the identity. -/
def toCleanRow (r : CRow) : CleanRow :=
  { ID := r.ID
    OCID := r.OCID
    Date := r.Date
    Year := r.Year
    Month := r.Month
    Method := r.Method
    Tipo_Contratacion := r.TipoDeContratacion
    Provincia := r.ProvinciaBuyer
    Localidad := r.Localidad
    Region := r.Region
    Proveedores := r.Proveedores
    Monto := pd_to_numeric r.Monto
    Titulo := r.Titulo
    Descripcion := r.Descripcion
    Presupuesto := r.Presupuesto }

/-- The rows `df.dropna(subset=["Monto", "Tipo_Contratacion"])` keeps
(source line 254). -/
def keepRow (r : CleanRow) : Bool :=
  r.Monto.isSome && r.Tipo_Contratacion.isSome

/-- `df.drop_duplicates(subset=["ID"], keep="first")` (source line 258):
a row is kept exactly when no earlier row has the same `ID` value
(pandas treats two `NaN` ids as equal, matching `jnull = jnull` here).
`seen` accumulates the ids of the rows already scanned. -/
def dedupGo : List JVal → List CleanRow → List CleanRow
  | _, [] => []
  | seen, r :: rs =>
    if r.ID ∈ seen then dedupGo seen rs
    else r :: dedupGo (r.ID :: seen) rs

/-- `df.drop_duplicates(subset=["ID"], keep="first")` (source line 258). -/
def drop_duplicates_by_ID (rows : List CleanRow) : List CleanRow :=
  dedupGo [] rows

/-- `df.dropna(subset=["Monto", "Tipo_Contratacion"])` (source line 254). -/
def dropna_Monto_Tipo (rows : List CleanRow) : List CleanRow :=
  rows.filter keepRow

/-- The cleaning step of source lines 252-258: drop the null rows, then
drop duplicate ids keeping the first occurrence. -/
def cleanStep (rows : List CleanRow) : List CleanRow :=
  drop_duplicates_by_ID (dropna_Monto_Tipo rows)

/-- The whole module-level preparation of source lines 243-258 applied to
the dataframe coming out of `load_data` (and the optional local filters):
type coercion and renaming, then the cleaning step. -/
def moduleClean (rows : List CRow) : List CleanRow :=
  cleanStep (rows.map toCleanRow)

/-- The year filter widget: `"Todos"` or a concrete year (source lines
106-110). -/
inductive YearSel where
  | todos
  | year (y : Nat)
deriving DecidableEq

/-- What the `apply_filters` branch does (source lines 205-211). -/
inductive AppAction where
  | showError
  | callLoadData (year : Option Nat) (search : String) (buyer : Option String)
deriving DecidableEq

/-- Source lines 205-211: on a button press, reject keywords shorter
than 3 characters with an error message, otherwise call `load_data` with
the year (`None` for `"Todos"`) and the buyer filter (`None` when the
text box is empty, by Python string truthiness). -/
def applyFiltersAction (yearSel : YearSel) (searchKeyword buyerFilter : String) :
    AppAction :=
  if searchKeyword.length < 3 then .showError
  else
    .callLoadData
      (match yearSel with | .todos => none | .year y => some y)
      searchKeyword
      (if buyerFilter = "" then none else some buyerFilter)

/-- Requests in an event trace. -/
def isRequestEv : Event → Bool
  | .request _ _ => true
  | _ => false

/-- First-attempt requests: one per page the pagination loop starts. -/
def isPageStart : Event → Bool
  | .request _ 0 => true
  | _ => false

/-- Number of HTTP requests recorded in a trace. -/
def numRequests (evs : List Event) : Nat :=
  evs.countP isRequestEv

/-- Number of page requests (loop iterations) recorded in a trace. -/
def numPageStarts (evs : List Event) : Nat :=
  evs.countP isPageStart

/-- A record with a string id and a numeric amount, used as concrete
test data. -/
def itemA : Item :=
  { id := .jstr ("a"), ocid := .jnull, date := .jnull, year := .jnull
    month := .jnull, method := .jnull, internal_type := .jnull
    buyer := .jnull, locality := .jnull, region := .jnull
    suppliers := .jnull, amount := .jnum 5, title := .jnull
    description := .jnull, budget := .jnull }

/-- A one-record page body claiming a single page. -/
def bodyA : PageJson := { dataKey := [itemA], pagesKey := some 1 }

/-- A server that answers 429 with body `bodyA` to every attempt. -/
def serverAll429 : Nat → Nat → AttemptResp := fun _ _ => .resp 429 (some bodyA)

/-- A trivial date parser that parses nothing. -/
def parse0 : String → Option Int := fun _ => none

/-- Every request event emitted by the retry loop is for page `p` with an
attempt index at least the starting one. -/
theorem fetch_retry_requests (A : Nat → AttemptResp) (p : Nat) :
    ∀ rem i last q a,
      Event.request q a ∈ (fetch_retry A p i rem last).2 → q = p ∧ i ≤ a := by
  intro rem
  induction rem with
  | zero =>
    intro i last q a h
    simp [fetch_retry] at h
  | succ rem ih =>
    intro i last q a h
    rw [fetch_retry] at h
    cases hA : A i with
    | conn =>
      rw [hA] at h
      simp at h
      rcases h with ⟨h1, h2⟩
      omega
    | resp st body =>
      rw [hA] at h
      dsimp only at h
      by_cases h429 : st = 429
      · rw [if_pos h429] at h
        simp only [List.mem_cons] at h
        rcases h with h | h | h | h
        · rcases Event.request.inj h.symm with ⟨h1, h2⟩
          omega
        · exact absurd h (by simp)
        · exact absurd h (by simp)
        · rcases ih (i + 1) body q a h with ⟨h1, h2⟩
          omega
      · rw [if_neg h429] at h
        by_cases herr : 400 ≤ st ∧ st < 600
        · rw [if_pos herr] at h
          simp at h
          rcases h with ⟨h1, h2⟩
          omega
        · rw [if_neg herr] at h
          simp at h
          rcases h with ⟨h1, h2⟩
          omega

/-- When at least one attempt is left, the trace of the retry loop starts
with the request for the current attempt. -/
theorem fetch_retry_head (A : Nat → AttemptResp) (p i rem : Nat)
    (last : Option PageJson) :
    ∃ t, (fetch_retry A p i (rem + 1) last).2 = Event.request p i :: t := by
  rw [fetch_retry]
  cases A i with
  | conn => exact ⟨[Event.errorMsg], rfl⟩
  | resp st body =>
    dsimp only
    by_cases h429 : st = 429
    · rw [if_pos h429]
      exact ⟨_, rfl⟩
    · rw [if_neg h429]
      by_cases herr : 400 ≤ st ∧ st < 600
      · rw [if_pos herr]
        exact ⟨[Event.errorMsg], rfl⟩
      · rw [if_neg herr]
        exact ⟨[], rfl⟩

/-- The trace of one page fetch starts with the first-attempt request. -/
theorem fetch_page_head (A : Nat → AttemptResp) (p : Nat) :
    ∃ t, (fetch_page A p).2 = Event.request p 0 :: t :=
  fetch_retry_head A p 0 2 none


/-- The retry loop issues at most as many requests as it has attempts
left. -/
theorem fetch_retry_numRequests (A : Nat → AttemptResp) (p : Nat) :
    ∀ rem i last, numRequests (fetch_retry A p i rem last).2 ≤ rem := by
  intro rem
  induction rem with
  | zero => intro i last; simp [fetch_retry, numRequests]
  | succ rem ih =>
    intro i last
    rw [fetch_retry]
    cases A i with
    | conn =>
      simp only [numRequests, List.countP_cons, isRequestEv]
      simp
    | resp st body =>
      dsimp only
      by_cases h429 : st = 429
      · rw [if_pos h429]
        have h := ih (i + 1) body
        simp only [numRequests] at h ⊢
        rw [List.countP_cons_of_pos _ _ (by rfl),
          List.countP_cons_of_neg _ _ (by decide),
          List.countP_cons_of_neg _ _ (by decide)]
        omega
      · rw [if_neg h429]
        by_cases herr : 400 ≤ st ∧ st < 600
        · rw [if_pos herr]
          simp only [numRequests, List.countP_cons, isRequestEv]
          simp
        · rw [if_neg herr]
          simp only [numRequests, List.countP_cons, isRequestEv]
          simp

/-- Once past the first attempt, the retry loop emits no first-attempt
request, so it starts no new page. -/
theorem fetch_retry_numPageStarts (A : Nat → AttemptResp) (p : Nat) :
    ∀ rem i last, 1 ≤ i →
      numPageStarts (fetch_retry A p i rem last).2 = 0 := by
  intro rem
  induction rem with
  | zero => intro i last hi; simp [fetch_retry, numPageStarts]
  | succ rem ih =>
    intro i last hi
    obtain ⟨n, rfl⟩ : ∃ n, i = n + 1 := ⟨i - 1, by omega⟩
    rw [fetch_retry]
    cases A (n + 1) with
    | conn =>
      simp only [numPageStarts]
      rw [List.countP_cons_of_neg _ _ (by simp [isPageStart]),
        List.countP_cons_of_neg _ _ (by decide)]
      rfl
    | resp st body =>
      dsimp only
      by_cases h429 : st = 429
      · rw [if_pos h429]
        have h := ih (n + 1 + 1) body (by omega)
        simp only [numPageStarts] at h ⊢
        rw [List.countP_cons_of_neg _ _ (by simp [isPageStart]),
          List.countP_cons_of_neg _ _ (by decide),
          List.countP_cons_of_neg _ _ (by decide)]
        exact h
      · rw [if_neg h429]
        by_cases herr : 400 ≤ st ∧ st < 600
        · rw [if_pos herr]
          simp only [numPageStarts]
          rw [List.countP_cons_of_neg _ _ (by simp [isPageStart]),
            List.countP_cons_of_neg _ _ (by decide)]
          rfl
        · rw [if_neg herr]
          simp only [numPageStarts]
          rw [List.countP_cons_of_neg _ _ (by simp [isPageStart])]
          rfl

/-- One page fetch records exactly one page request. -/
theorem fetch_page_numPageStarts (A : Nat → AttemptResp) (p : Nat) :
    numPageStarts (fetch_page A p).2 = 1 := by
  rw [fetch_page, fetch_retry]
  cases A 0 with
  | conn => rfl
  | resp st body =>
    dsimp only
    by_cases h429 : st = 429
    · rw [if_pos h429]
      have h := fetch_retry_numPageStarts A p 2 (0 + 1) body (by omega)
      simp only [numPageStarts] at h ⊢
      rw [List.countP_cons_of_pos _ _ (by rfl),
        List.countP_cons_of_neg _ _ (by decide),
        List.countP_cons_of_neg _ _ (by decide)]
      omega
    · rw [if_neg h429]
      by_cases herr : 400 ≤ st ∧ st < 600
      · rw [if_pos herr]; rfl
      · rw [if_neg herr]; rfl

/-- Every request the pagination loop issues is for a page between the
current one and `max_pages`. -/
theorem load_data_loop_requests (S : Nat → Nat → AttemptResp) (mp : Nat) :
    ∀ fuel page acc q a,
      Event.request q a ∈ (load_data_loop S mp page acc fuel).2 →
      page ≤ q ∧ q ≤ mp := by
  intro fuel
  induction fuel with
  | zero => intro page acc q a h; simp [load_data_loop] at h
  | succ fuel ih =>
    intro page acc q a h
    rw [load_data_loop] at h
    by_cases hpg : mp < page
    · rw [if_pos hpg] at h
      simp at h
    · rw [if_neg hpg] at h
      dsimp only at h
      rcases hf : fetch_page (S page) page with ⟨out, fevs⟩
      rw [hf] at h
      dsimp only at h
      have hfev : Event.request q a ∈ fevs → page ≤ q ∧ q ≤ mp := by
        intro hm
        have h3 : Event.request q a ∈ (fetch_page (S page) page).2 := by
          rw [hf]; exact hm
        have h4 := (fetch_retry_requests (S page) page 3 0 none q a h3).1
        omega
      cases out with
      | connErr => exact hfev h
      | httpErr => exact hfev h
      | success body =>
        cases body with
        | none => exact hfev h
        | some pj =>
          dsimp only at h
          by_cases hemp : pj.dataKey.isEmpty
          · rw [if_pos hemp] at h
            exact hfev h
          · rw [if_neg hemp] at h
            by_cases hpp : pj.getPages ≤ page
            · rw [if_pos hpp] at h
              exact hfev h
            · rw [if_neg hpp] at h
              dsimp only at h
              rcases List.mem_append.mp h with hm | hm
              · exact hfev hm
              · rcases List.mem_cons.mp hm with hm1 | hm2
                · exact absurd hm1 (by simp)
                · have := ih (page + 1) (acc ++ pj.dataKey.map itemToRow) q a hm2
                  omega
      | fellThrough body =>
        cases body with
        | none => exact hfev h
        | some pj =>
          dsimp only at h
          by_cases hemp : pj.dataKey.isEmpty
          · rw [if_pos hemp] at h
            exact hfev h
          · rw [if_neg hemp] at h
            by_cases hpp : pj.getPages ≤ page
            · rw [if_pos hpp] at h
              exact hfev h
            · rw [if_neg hpp] at h
              dsimp only at h
              rcases List.mem_append.mp h with hm | hm
              · exact hfev hm
              · rcases List.mem_cons.mp hm with hm1 | hm2
                · exact absurd hm1 (by simp)
                · have := ih (page + 1) (acc ++ pj.dataKey.map itemToRow) q a hm2
                  omega

/-- Unfolding of one loop iteration whose fetch ended with a response
whose body is not valid JSON: `response.json()` raises. -/
theorem load_data_loop_succ_raised (S : Nat → Nat → AttemptResp) (mp page : Nat)
    (acc : List Row) (fuel : Nat) (hpg : ¬mp < page) (fevs : List Event)
    (hf : fetch_page (S page) page = (.success none, fevs)
        ∨ fetch_page (S page) page = (.fellThrough none, fevs)) :
    load_data_loop S mp page acc (fuel + 1) = (.raised, fevs) := by
  rw [load_data_loop, if_neg hpg]
  rcases hf with hf | hf <;> rw [hf]

/-- Unfolding of one loop iteration whose fetch produced a parsed JSON
body (a break on a good response, or the fall-through after three
429s). -/
theorem load_data_loop_succ_page (S : Nat → Nat → AttemptResp) (mp page : Nat)
    (acc : List Row) (fuel : Nat) (hpg : ¬mp < page) (pj : PageJson)
    (fevs : List Event)
    (hf : fetch_page (S page) page = (.success (some pj), fevs)
        ∨ fetch_page (S page) page = (.fellThrough (some pj), fevs)) :
    load_data_loop S mp page acc (fuel + 1) =
      if pj.dataKey.isEmpty then (.done acc, fevs)
      else if pj.getPages ≤ page then
        (.done (acc ++ pj.dataKey.map itemToRow), fevs)
      else
        ((load_data_loop S mp (page + 1) (acc ++ pj.dataKey.map itemToRow) fuel).1,
          fevs ++ .sleep 15 ::
            (load_data_loop S mp (page + 1) (acc ++ pj.dataKey.map itemToRow) fuel).2) := by
  rw [load_data_loop, if_neg hpg]
  rcases hf with hf | hf <;> rw [hf]

/-- Unfolding of one loop iteration whose fetch ended in an HTTP or
connection error. -/
theorem load_data_loop_succ_err (S : Nat → Nat → AttemptResp) (mp page : Nat)
    (acc : List Row) (fuel : Nat) (hpg : ¬mp < page) (fevs : List Event)
    (hf : fetch_page (S page) page = (.httpErr, fevs)
        ∨ fetch_page (S page) page = (.connErr, fevs)) :
    load_data_loop S mp page acc (fuel + 1) = (.errEmpty, fevs) := by
  rw [load_data_loop, if_neg hpg]
  rcases hf with hf | hf <;> rw [hf]

/-- A non-empty loop trace starts with the first-attempt request for the
current page. -/
theorem load_data_loop_head (S : Nat → Nat → AttemptResp) (mp : Nat)
    (fuel page : Nat) (acc : List Row)
    (h : (load_data_loop S mp page acc fuel).2 ≠ []) :
    ∃ t, (load_data_loop S mp page acc fuel).2 = Event.request page 0 :: t := by
  cases fuel with
  | zero => exact absurd rfl h
  | succ fuel =>
    by_cases hpg : mp < page
    · rw [load_data_loop, if_pos hpg] at h
      exact absurd rfl h
    · obtain ⟨t0, ht0⟩ := fetch_page_head (S page) page
      rcases hf : fetch_page (S page) page with ⟨out, fevs⟩
      rw [hf] at ht0
      have ht1 : fevs = Event.request page 0 :: t0 := ht0
      cases out with
      | connErr =>
        rw [load_data_loop_succ_err S mp page acc fuel hpg fevs (Or.inr hf)]
        exact ⟨t0, ht1⟩
      | httpErr =>
        rw [load_data_loop_succ_err S mp page acc fuel hpg fevs (Or.inl hf)]
        exact ⟨t0, ht1⟩
      | success body =>
        cases body with
        | none =>
          rw [load_data_loop_succ_raised S mp page acc fuel hpg fevs (Or.inl hf)]
          exact ⟨t0, ht1⟩
        | some pj =>
          rw [load_data_loop_succ_page S mp page acc fuel hpg pj fevs (Or.inl hf)]
          by_cases hemp : pj.dataKey.isEmpty
          · rw [if_pos hemp]; exact ⟨t0, ht1⟩
          · rw [if_neg hemp]
            by_cases hpp : pj.getPages ≤ page
            · rw [if_pos hpp]; exact ⟨t0, ht1⟩
            · rw [if_neg hpp]
              refine ⟨t0 ++ Event.sleep 15 ::
                (load_data_loop S mp (page + 1)
                  (acc ++ pj.dataKey.map itemToRow) fuel).2, ?_⟩
              rw [ht1]
              simp
      | fellThrough body =>
        cases body with
        | none =>
          rw [load_data_loop_succ_raised S mp page acc fuel hpg fevs (Or.inr hf)]
          exact ⟨t0, ht1⟩
        | some pj =>
          rw [load_data_loop_succ_page S mp page acc fuel hpg pj fevs (Or.inr hf)]
          by_cases hemp : pj.dataKey.isEmpty
          · rw [if_pos hemp]; exact ⟨t0, ht1⟩
          · rw [if_neg hemp]
            by_cases hpp : pj.getPages ≤ page
            · rw [if_pos hpp]; exact ⟨t0, ht1⟩
            · rw [if_neg hpp]
              refine ⟨t0 ++ Event.sleep 15 ::
                (load_data_loop S mp (page + 1)
                  (acc ++ pj.dataKey.map itemToRow) fuel).2, ?_⟩
              rw [ht1]
              simp

/-- The pagination loop starts at most `fuel` pages. -/
theorem load_data_loop_numPageStarts (S : Nat → Nat → AttemptResp) (mp : Nat) :
    ∀ fuel page acc,
      numPageStarts (load_data_loop S mp page acc fuel).2 ≤ fuel := by
  intro fuel
  induction fuel with
  | zero => intro page acc; simp [load_data_loop, numPageStarts]
  | succ fuel ih =>
    intro page acc
    by_cases hpg : mp < page
    · rw [load_data_loop, if_pos hpg]
      simp [numPageStarts]
    · rcases hf : fetch_page (S page) page with ⟨out, fevs⟩
      have hfev : numPageStarts fevs = 1 := by
        have := fetch_page_numPageStarts (S page) page
        rw [hf] at this
        exact this
      cases out with
      | connErr =>
        rw [load_data_loop_succ_err S mp page acc fuel hpg fevs (Or.inr hf)]
        dsimp only
        omega
      | httpErr =>
        rw [load_data_loop_succ_err S mp page acc fuel hpg fevs (Or.inl hf)]
        dsimp only
        omega
      | success body =>
        cases body with
        | none =>
          rw [load_data_loop_succ_raised S mp page acc fuel hpg fevs (Or.inl hf)]
          dsimp only
          omega
        | some pj =>
          rw [load_data_loop_succ_page S mp page acc fuel hpg pj fevs (Or.inl hf)]
          by_cases hemp : pj.dataKey.isEmpty
          · rw [if_pos hemp]; dsimp only; omega
          · rw [if_neg hemp]
            by_cases hpp : pj.getPages ≤ page
            · rw [if_pos hpp]; dsimp only; omega
            · rw [if_neg hpp]
              have hrec := ih (page + 1) (acc ++ pj.dataKey.map itemToRow)
              simp only [numPageStarts] at hfev hrec ⊢
              rw [List.countP_append, List.countP_cons_of_neg _ _ (by decide)]
              omega
      | fellThrough body =>
        cases body with
        | none =>
          rw [load_data_loop_succ_raised S mp page acc fuel hpg fevs (Or.inr hf)]
          dsimp only
          omega
        | some pj =>
          rw [load_data_loop_succ_page S mp page acc fuel hpg pj fevs (Or.inr hf)]
          by_cases hemp : pj.dataKey.isEmpty
          · rw [if_pos hemp]; dsimp only; omega
          · rw [if_neg hemp]
            by_cases hpp : pj.getPages ≤ page
            · rw [if_pos hpp]; dsimp only; omega
            · rw [if_neg hpp]
              have hrec := ih (page + 1) (acc ++ pj.dataKey.map itemToRow)
              simp only [numPageStarts] at hfev hrec ⊢
              rw [List.countP_append, List.countP_cons_of_neg _ _ (by decide)]
              omega

/-- Any body the retry loop hands to the rest of `load_data` is either
the initial placeholder or a body the server actually sent. -/
theorem fetch_retry_body_origin (A : Nat → AttemptResp) (p : Nat) :
    ∀ rem i last b,
      ((fetch_retry A p i rem last).1 = .success b
        ∨ (fetch_retry A p i rem last).1 = .fellThrough b) →
      b = last ∨ ∃ j st, A j = .resp st b := by
  intro rem
  induction rem with
  | zero =>
    intro i last b h
    rcases h with h | h
    · exact absurd h (by simp [fetch_retry])
    · rw [fetch_retry] at h
      exact Or.inl (FetchOutcome.fellThrough.inj h).symm
  | succ rem ih =>
    intro i last b h
    rw [fetch_retry] at h
    rcases hA : A i with _ | ⟨st, body⟩ <;> rw [hA] at h
    · dsimp only at h
      rcases h with h | h <;> exact absurd h (by simp)
    · dsimp only at h
      by_cases h429 : st = 429
      · rw [if_pos h429] at h
        rcases ih (i + 1) body b h with h1 | h2
        · exact Or.inr ⟨i, st, by rw [hA, h1]⟩
        · exact Or.inr h2
      · rw [if_neg h429] at h
        by_cases herr : 400 ≤ st ∧ st < 600
        · rw [if_pos herr] at h
          rcases h with h | h <;> exact absurd h (by simp)
        · rw [if_neg herr] at h
          rcases h with h | h
          · exact Or.inr ⟨i, st, by rw [hA, FetchOutcome.success.inj h]⟩
          · exact absurd h (by simp)

/-- A parsed page body that `load_data` goes on to process was actually
sent by the server on some attempt. -/
theorem fetch_page_body_origin (A : Nat → AttemptResp) (p : Nat) (pj : PageJson)
    (h : (fetch_page A p).1 = .success (some pj)
        ∨ (fetch_page A p).1 = .fellThrough (some pj)) :
    ∃ j st, A j = .resp st (some pj) := by
  rcases fetch_retry_body_origin A p 3 0 none (some pj) h with h1 | h2
  · exact absurd h1 (by simp)
  · exact h2

/-- If every page body the server can send holds at most `K` records,
each loop run grows the accumulator by at most `fuel * K` rows. -/
theorem load_data_loop_done_length (S : Nat → Nat → AttemptResp) (mp K : Nat)
    (hK : ∀ p i st b, S p i = .resp st (some b) → b.dataKey.length ≤ K) :
    ∀ fuel page acc rows,
      (load_data_loop S mp page acc fuel).1 = .done rows →
      rows.length ≤ acc.length + fuel * K := by
  intro fuel
  induction fuel with
  | zero =>
    intro page acc rows h
    rw [load_data_loop] at h
    rw [← LoopResult.done.inj h]
    omega
  | succ fuel ih =>
    intro page acc rows h
    by_cases hpg : mp < page
    · rw [load_data_loop, if_pos hpg] at h
      dsimp only at h
      rw [← LoopResult.done.inj h]
      omega
    · rcases hf : fetch_page (S page) page with ⟨out, fevs⟩
      cases out with
      | connErr =>
        rw [load_data_loop_succ_err S mp page acc fuel hpg fevs (Or.inr hf)] at h
        exact absurd h (by simp)
      | httpErr =>
        rw [load_data_loop_succ_err S mp page acc fuel hpg fevs (Or.inl hf)] at h
        exact absurd h (by simp)
      | success body =>
        cases body with
        | none =>
          rw [load_data_loop_succ_raised S mp page acc fuel hpg fevs (Or.inl hf)] at h
          exact absurd h (by simp)
        | some pj =>
          have hb : (fetch_page (S page) page).1 = .success (some pj) := by
            rw [hf]
          obtain ⟨j, st, hj⟩ := fetch_page_body_origin (S page) page pj (Or.inl hb)
          have hlen : pj.dataKey.length ≤ K := hK page j st pj hj
          rw [load_data_loop_succ_page S mp page acc fuel hpg pj fevs (Or.inl hf)] at h
          by_cases hemp : pj.dataKey.isEmpty
          · rw [if_pos hemp] at h
            dsimp only at h
            rw [← LoopResult.done.inj h]
            omega
          · rw [if_neg hemp] at h
            by_cases hpp : pj.getPages ≤ page
            · rw [if_pos hpp] at h
              dsimp only at h
              rw [← LoopResult.done.inj h]
              rw [Nat.succ_mul]
              simp only [List.length_append, List.length_map]
              omega
            · rw [if_neg hpp] at h
              dsimp only at h
              have hrec := ih (page + 1) (acc ++ pj.dataKey.map itemToRow) rows h
              simp only [List.length_append, List.length_map] at hrec
              rw [Nat.succ_mul]
              omega
      | fellThrough body =>
        cases body with
        | none =>
          rw [load_data_loop_succ_raised S mp page acc fuel hpg fevs (Or.inr hf)] at h
          exact absurd h (by simp)
        | some pj =>
          have hb : (fetch_page (S page) page).1 = .fellThrough (some pj) := by
            rw [hf]
          obtain ⟨j, st, hj⟩ := fetch_page_body_origin (S page) page pj (Or.inr hb)
          have hlen : pj.dataKey.length ≤ K := hK page j st pj hj
          rw [load_data_loop_succ_page S mp page acc fuel hpg pj fevs (Or.inr hf)] at h
          by_cases hemp : pj.dataKey.isEmpty
          · rw [if_pos hemp] at h
            dsimp only at h
            rw [← LoopResult.done.inj h]
            omega
          · rw [if_neg hemp] at h
            by_cases hpp : pj.getPages ≤ page
            · rw [if_pos hpp] at h
              dsimp only at h
              rw [← LoopResult.done.inj h]
              rw [Nat.succ_mul]
              simp only [List.length_append, List.length_map]
              omega
            · rw [if_neg hpp] at h
              dsimp only at h
              have hrec := ih (page + 1) (acc ++ pj.dataKey.map itemToRow) rows h
              simp only [List.length_append, List.length_map] at hrec
              rw [Nat.succ_mul]
              omega

/-- The pagination loop needs no more fuel than `max_pages` allows:
beyond the point where the `while` condition must fail, extra fuel does
not change the run.  This is the termination of the loop in the
embedding. -/
theorem load_data_loop_fuel_stable (S : Nat → Nat → AttemptResp) (mp : Nat) :
    ∀ fuel k page acc, mp + 1 ≤ page + fuel →
      load_data_loop S mp page acc fuel
        = load_data_loop S mp page acc (fuel + k) := by
  intro fuel
  induction fuel with
  | zero =>
    intro k page acc hp
    cases k with
    | zero => rfl
    | succ k =>
      rw [load_data_loop]
      rw [show 0 + (k + 1) = k + 1 by omega, load_data_loop,
        if_pos (by omega : mp < page)]
  | succ fuel ih =>
    intro k page acc hp
    rw [show fuel + 1 + k = (fuel + k) + 1 by omega]
    by_cases hpg : mp < page
    · rw [load_data_loop, if_pos hpg]
      rw [load_data_loop, if_pos hpg]
    · rcases hf : fetch_page (S page) page with ⟨out, fevs⟩
      cases out with
      | connErr =>
        rw [load_data_loop_succ_err S mp page acc fuel hpg fevs (Or.inr hf),
          load_data_loop_succ_err S mp page acc (fuel + k) hpg fevs (Or.inr hf)]
      | httpErr =>
        rw [load_data_loop_succ_err S mp page acc fuel hpg fevs (Or.inl hf),
          load_data_loop_succ_err S mp page acc (fuel + k) hpg fevs (Or.inl hf)]
      | success body =>
        cases body with
        | none =>
          rw [load_data_loop_succ_raised S mp page acc fuel hpg fevs (Or.inl hf),
            load_data_loop_succ_raised S mp page acc (fuel + k) hpg fevs (Or.inl hf)]
        | some pj =>
          rw [load_data_loop_succ_page S mp page acc fuel hpg pj fevs (Or.inl hf),
            load_data_loop_succ_page S mp page acc (fuel + k) hpg pj fevs (Or.inl hf)]
          by_cases hemp : pj.dataKey.isEmpty
          · simp only [if_pos hemp]
          · simp only [if_neg hemp]
            by_cases hpp : pj.getPages ≤ page
            · simp only [if_pos hpp]
            · simp only [if_neg hpp]
              rw [ih k (page + 1) (acc ++ pj.dataKey.map itemToRow) (by omega)]
      | fellThrough body =>
        cases body with
        | none =>
          rw [load_data_loop_succ_raised S mp page acc fuel hpg fevs (Or.inr hf),
            load_data_loop_succ_raised S mp page acc (fuel + k) hpg fevs (Or.inr hf)]
        | some pj =>
          rw [load_data_loop_succ_page S mp page acc fuel hpg pj fevs (Or.inr hf),
            load_data_loop_succ_page S mp page acc (fuel + k) hpg pj fevs (Or.inr hf)]
          by_cases hemp : pj.dataKey.isEmpty
          · simp only [if_pos hemp]
          · simp only [if_neg hemp]
            by_cases hpp : pj.getPages ≤ page
            · simp only [if_pos hpp]
            · simp only [if_neg hpp]
              rw [ih k (page + 1) (acc ++ pj.dataKey.map itemToRow) (by omega)]

/-- Specification-side description of the dataset `load_data` assembles
when every page fetch succeeds with body `B page`: the processed pages in
increasing page order, each contributing one row per JSON record in the
order the API returned them, stopping at an empty page, at the reported
page count, or at `max_pages`. -/
def specAssembledRows (B : Nat → PageJson) (maxPages : Nat) : Nat → Nat → List Row
  | _, 0 => []
  | page, fuel + 1 =>
    if maxPages < page then []
    else if (B page).dataKey.isEmpty then []
    else
      (B page).dataKey.map itemToRow ++
        (if (B page).getPages ≤ page then []
         else specAssembledRows B maxPages (page + 1) fuel)

/-- On a run whose page fetches all succeed, the loop ends normally with
the accumulator extended by exactly the rows of the processed pages, in
page order and record order. -/
theorem load_data_loop_success_rows (S : Nat → Nat → AttemptResp)
    (B : Nat → PageJson) (mp : Nat)
    (hS : ∀ p, (fetch_page (S p) p).1 = .success (some (B p))) :
    ∀ fuel page acc, (load_data_loop S mp page acc fuel).1
      = .done (acc ++ specAssembledRows B mp page fuel) := by
  intro fuel
  induction fuel with
  | zero =>
    intro page acc
    rw [load_data_loop, specAssembledRows]
    simp
  | succ fuel ih =>
    intro page acc
    by_cases hpg : mp < page
    · rw [load_data_loop, if_pos hpg, specAssembledRows, if_pos hpg]
      simp
    · have hf : fetch_page (S page) page
          = (.success (some (B page)), (fetch_page (S page) page).2) := by
        rw [← hS page]
      rw [load_data_loop_succ_page S mp page acc fuel hpg (B page) _ (Or.inl hf),
        specAssembledRows, if_neg hpg]
      by_cases hemp : (B page).dataKey.isEmpty
      · rw [if_pos hemp, if_pos hemp]
        simp
      · rw [if_neg hemp, if_neg hemp]
        by_cases hpp : (B page).getPages ≤ page
        · rw [if_pos hpp, if_pos hpp]
          simp
        · rw [if_neg hpp, if_neg hpp]
          dsimp only
          rw [ih (page + 1) (acc ++ (B page).dataKey.map itemToRow)]
          simp

/-- In any loop run, the first-attempt request for a later page only ever
appears immediately after the 1.5 s between-pages sleep. -/
theorem load_data_loop_paced (S : Nat → Nat → AttemptResp) (mp : Nat) :
    ∀ fuel page acc p, page < p →
      Event.request p 0 ∈ (load_data_loop S mp page acc fuel).2 →
      ∃ t1 t2, (load_data_loop S mp page acc fuel).2
        = t1 ++ Event.sleep 15 :: Event.request p 0 :: t2 := by
  intro fuel
  induction fuel with
  | zero =>
    intro page acc p hp h
    simp [load_data_loop] at h
  | succ fuel ih =>
    intro page acc p hp h
    by_cases hpg : mp < page
    · rw [load_data_loop, if_pos hpg] at h
      simp at h
    · rcases hf : fetch_page (S page) page with ⟨out, fevs⟩
      have hnf : Event.request p 0 ∉ fevs := by
        intro hm
        have h3 : Event.request p 0 ∈ (fetch_page (S page) page).2 := by
          rw [hf]; exact hm
        have h4 := (fetch_retry_requests (S page) page 3 0 none p 0 h3).1
        omega
      cases out with
      | connErr =>
        rw [load_data_loop_succ_err S mp page acc fuel hpg fevs (Or.inr hf)] at h
        exact absurd h hnf
      | httpErr =>
        rw [load_data_loop_succ_err S mp page acc fuel hpg fevs (Or.inl hf)] at h
        exact absurd h hnf
      | success body =>
        cases body with
        | none =>
          rw [load_data_loop_succ_raised S mp page acc fuel hpg fevs (Or.inl hf)] at h
          exact absurd h hnf
        | some pj =>
          rw [load_data_loop_succ_page S mp page acc fuel hpg pj fevs (Or.inl hf)] at h ⊢
          by_cases hemp : pj.dataKey.isEmpty
          · rw [if_pos hemp] at h ⊢
            exact absurd h hnf
          · rw [if_neg hemp] at h ⊢
            by_cases hpp : pj.getPages ≤ page
            · rw [if_pos hpp] at h ⊢
              exact absurd h hnf
            · rw [if_neg hpp] at h ⊢
              dsimp only at h ⊢
              rcases List.mem_append.mp h with hm | hm
              · exact absurd hm hnf
              · rcases List.mem_cons.mp hm with hm1 | hm2
                · exact absurd hm1 (by simp)
                · by_cases hp1 : p = page + 1
                  · have hne : (load_data_loop S mp (page + 1)
                        (acc ++ pj.dataKey.map itemToRow) fuel).2 ≠ [] := by
                      intro hnil
                      rw [hnil] at hm2
                      simp at hm2
                    obtain ⟨t, ht⟩ := load_data_loop_head S mp fuel (page + 1)
                      (acc ++ pj.dataKey.map itemToRow) hne
                    refine ⟨fevs, t, ?_⟩
                    rw [ht, hp1]
                  · have := ih (page + 1) (acc ++ pj.dataKey.map itemToRow) p
                      (by omega) hm2
                    obtain ⟨t1, t2, heq⟩ := this
                    refine ⟨fevs ++ Event.sleep 15 :: t1, t2, ?_⟩
                    rw [heq]
                    simp
      | fellThrough body =>
        cases body with
        | none =>
          rw [load_data_loop_succ_raised S mp page acc fuel hpg fevs (Or.inr hf)] at h
          exact absurd h hnf
        | some pj =>
          rw [load_data_loop_succ_page S mp page acc fuel hpg pj fevs (Or.inr hf)] at h ⊢
          by_cases hemp : pj.dataKey.isEmpty
          · rw [if_pos hemp] at h ⊢
            exact absurd h hnf
          · rw [if_neg hemp] at h ⊢
            by_cases hpp : pj.getPages ≤ page
            · rw [if_pos hpp] at h ⊢
              exact absurd h hnf
            · rw [if_neg hpp] at h ⊢
              dsimp only at h ⊢
              rcases List.mem_append.mp h with hm | hm
              · exact absurd hm hnf
              · rcases List.mem_cons.mp hm with hm1 | hm2
                · exact absurd hm1 (by simp)
                · by_cases hp1 : p = page + 1
                  · have hne : (load_data_loop S mp (page + 1)
                        (acc ++ pj.dataKey.map itemToRow) fuel).2 ≠ [] := by
                      intro hnil
                      rw [hnil] at hm2
                      simp at hm2
                    obtain ⟨t, ht⟩ := load_data_loop_head S mp fuel (page + 1)
                      (acc ++ pj.dataKey.map itemToRow) hne
                    refine ⟨fevs, t, ?_⟩
                    rw [ht, hp1]
                  · have := ih (page + 1) (acc ++ pj.dataKey.map itemToRow) p
                      (by omega) hm2
                    obtain ⟨t1, t2, heq⟩ := this
                    refine ⟨fevs ++ Event.sleep 15 :: t1, t2, ?_⟩
                    rw [heq]
                    simp

/-- Deduplication only removes rows: the output is a sublist of the
input. -/
theorem dedupGo_sublist : ∀ (l : List CleanRow) (seen : List JVal),
    List.Sublist (dedupGo seen l) l := by
  intro l
  induction l with
  | nil => intro seen; simp [dedupGo]
  | cons r rs ih =>
    intro seen
    rw [dedupGo]
    by_cases hs : r.ID ∈ seen
    · rw [if_pos hs]
      exact List.Sublist.cons r (ih seen)
    · rw [if_neg hs]
      exact List.Sublist.cons₂ r (ih (r.ID :: seen))

/-- No kept row has an id that was already seen. -/
theorem dedupGo_id_not_seen : ∀ (l : List CleanRow) (seen : List JVal) (x : CleanRow),
    x ∈ dedupGo seen l → x.ID ∉ seen := by
  intro l
  induction l with
  | nil => intro seen x hx; simp [dedupGo] at hx
  | cons r rs ih =>
    intro seen x hx
    rw [dedupGo] at hx
    by_cases hs : r.ID ∈ seen
    · rw [if_pos hs] at hx
      exact ih seen x hx
    · rw [if_neg hs] at hx
      rcases List.mem_cons.mp hx with h1 | h2
      · rw [h1]; exact hs
      · intro hseen
        exact ih (r.ID :: seen) x h2 (List.mem_cons_of_mem _ hseen)

/-- The kept rows have pairwise distinct ids. -/
theorem dedupGo_pairwise : ∀ (l : List CleanRow) (seen : List JVal),
    (dedupGo seen l).Pairwise (fun a b => a.ID ≠ b.ID) := by
  intro l
  induction l with
  | nil => intro seen; simp [dedupGo]
  | cons r rs ih =>
    intro seen
    rw [dedupGo]
    by_cases hs : r.ID ∈ seen
    · rw [if_pos hs]
      exact ih seen
    · rw [if_neg hs]
      refine List.pairwise_cons.mpr ⟨?_, ih (r.ID :: seen)⟩
      intro b hb
      have := dedupGo_id_not_seen rs (r.ID :: seen) b hb
      intro hEq
      exact this (by rw [← hEq]; exact List.mem_cons_self _ _)

/-- Every id of the input with an unseen id is represented among the kept
rows. -/
theorem dedupGo_covers : ∀ (l : List CleanRow) (seen : List JVal) (x : CleanRow),
    x ∈ l → x.ID ∉ seen → ∃ y, y ∈ dedupGo seen l ∧ y.ID = x.ID := by
  intro l
  induction l with
  | nil => intro seen x hx; simp at hx
  | cons r rs ih =>
    intro seen x hx hseen
    rw [dedupGo]
    by_cases hs : r.ID ∈ seen
    · rw [if_pos hs]
      rcases List.mem_cons.mp hx with h1 | h2
      · exact absurd (h1 ▸ hs) hseen
      · exact ih seen x h2 hseen
    · rw [if_neg hs]
      rcases List.mem_cons.mp hx with h1 | h2
      · exact ⟨r, List.mem_cons_self _ _, by rw [h1]⟩
      · by_cases hid : x.ID = r.ID
        · exact ⟨r, List.mem_cons_self _ _, hid.symm⟩
        · obtain ⟨y, hy1, hy2⟩ := ih (r.ID :: seen) x h2 (by
            intro hmem
            rcases List.mem_cons.mp hmem with hc | hc
            · exact hid hc
            · exact hseen hc)
          exact ⟨y, List.mem_cons_of_mem _ hy1, hy2⟩

/-- The first row bearing a given id (whose id is not yet seen) is always
kept. -/
theorem dedupGo_keeps_first : ∀ (f1 : List CleanRow) (x : CleanRow)
    (f2 : List CleanRow) (seen : List JVal),
    (∀ y ∈ f1, y.ID ≠ x.ID) → x.ID ∉ seen →
    x ∈ dedupGo seen (f1 ++ x :: f2) := by
  intro f1
  induction f1 with
  | nil =>
    intro x f2 seen hne hseen
    rw [List.nil_append, dedupGo, if_neg hseen]
    exact List.mem_cons_self _ _
  | cons z f1 ih =>
    intro x f2 seen hne hseen
    rw [List.cons_append, dedupGo]
    have hzx : z.ID ≠ x.ID := hne z (List.mem_cons_self _ _)
    by_cases hs : z.ID ∈ seen
    · rw [if_pos hs]
      exact ih x f2 seen (fun y hy => hne y (List.mem_cons_of_mem _ hy)) hseen
    · rw [if_neg hs]
      refine List.mem_cons_of_mem _ ?_
      refine ih x f2 (z.ID :: seen)
        (fun y hy => hne y (List.mem_cons_of_mem _ hy)) ?_
      intro hmem
      rcases List.mem_cons.mp hmem with hc | hc
      · exact hzx hc.symm
      · exact hseen hc

/-- Variant of the head lemma stated for any positive remaining-attempt
count. -/
theorem fetch_retry_head2 (A : Nat → AttemptResp) (p i rem : Nat)
    (last : Option PageJson) (h : 1 ≤ rem) :
    ∃ t, (fetch_retry A p i rem last).2 = Event.request p i :: t := by
  obtain ⟨k, rfl⟩ : ∃ k, rem = k + 1 := ⟨rem - 1, by omega⟩
  exact fetch_retry_head A p i k last

/-- C2: for every page fetch, an HTTP 429 answer makes the client warn,
sleep 5 seconds and retry the same request; at most 3 attempts are made
per page; and a response that is neither 429 nor an HTTP error ends the
retry loop at that attempt. -/
theorem load_data_retry_429_policy (A : Nat → AttemptResp) (p : Nat) :
    numRequests (fetch_page A p).2 ≤ 3
    ∧ (∀ i b, i < 3 → (∀ j, j < i → ∃ bj, A j = .resp 429 bj) →
        A i = .resp 429 b →
        (∃ t1 t2, (fetch_page A p).2
            = t1 ++ Event.request p i :: Event.warn429 :: Event.sleep 50 :: t2)
        ∧ (i + 1 < 3 → Event.request p (i + 1) ∈ (fetch_page A p).2))
    ∧ (∀ i st b, i < 3 → (∀ j, j < i → ∃ bj, A j = .resp 429 bj) →
        A i = .resp st b → st ≠ 429 → ¬(400 ≤ st ∧ st < 600) →
        (fetch_page A p).1 = .success b
        ∧ numRequests (fetch_page A p).2 = i + 1) := by
  refine ⟨fetch_retry_numRequests A p 3 0 none, ?_, ?_⟩
  · intro i b hi hall hA
    interval_cases i
    · constructor
      · refine ⟨[], (fetch_retry A p 1 2 b).2, ?_⟩
        simp [fetch_page, fetch_retry, hA]
      · intro h13
        have htr : (fetch_page A p).2
            = Event.request p 0 :: Event.warn429 :: Event.sleep 50 ::
              (fetch_retry A p 1 2 b).2 := by
          simp [fetch_page, fetch_retry, hA]
        obtain ⟨t, ht⟩ := fetch_retry_head2 A p 1 2 b (by omega)
        rw [htr, ht]
        simp
    · obtain ⟨b0, h0⟩ := hall 0 (by omega)
      constructor
      · refine ⟨[Event.request p 0, Event.warn429, Event.sleep 50],
          (fetch_retry A p 2 1 b).2, ?_⟩
        simp [fetch_page, fetch_retry, h0, hA]
      · intro h13
        have htr : (fetch_page A p).2
            = Event.request p 0 :: Event.warn429 :: Event.sleep 50 ::
              Event.request p 1 :: Event.warn429 :: Event.sleep 50 ::
              (fetch_retry A p 2 1 b).2 := by
          simp [fetch_page, fetch_retry, h0, hA]
        obtain ⟨t, ht⟩ := fetch_retry_head2 A p 2 1 b (by omega)
        rw [htr, ht]
        simp
    · obtain ⟨b0, h0⟩ := hall 0 (by omega)
      obtain ⟨b1, h1⟩ := hall 1 (by omega)
      constructor
      · refine ⟨[Event.request p 0, Event.warn429, Event.sleep 50,
          Event.request p 1, Event.warn429, Event.sleep 50], [], ?_⟩
        simp [fetch_page, fetch_retry, h0, h1, hA]
      · intro h13
        omega
  · intro i st b hi hall hA hne herr
    interval_cases i
    · refine ⟨?_, ?_⟩ <;>
        simp [fetch_page, fetch_retry, hA, hne, herr, numRequests, isRequestEv]
    · obtain ⟨b0, h0⟩ := hall 0 (by omega)
      refine ⟨?_, ?_⟩ <;>
        simp [fetch_page, fetch_retry, h0, hA, hne, herr, numRequests,
          isRequestEv, List.countP_cons]
    · obtain ⟨b0, h0⟩ := hall 0 (by omega)
      obtain ⟨b1, h1⟩ := hall 1 (by omega)
      refine ⟨?_, ?_⟩ <;>
        simp [fetch_page, fetch_retry, h0, h1, hA, hne, herr, numRequests,
          isRequestEv, List.countP_cons]

/-- C1: on a page where the server answers 429 to all 3 attempts, the
code stops retrying but then falls through to `response.json()` on the
last 429 response: with a 429 body that parses as a page, `load_data`
returns that body's records as data rows (3 requests were made).  This
contradicts giving up on the failed fetch. -/
theorem load_data_processes_429_body_after_3_attempts :
    (load_data serverAll429 parse0 10).1
      = .frame [coerceRow parse0 (itemToRow itemA)]
    ∧ numRequests (load_data serverAll429 parse0 10).2 = 3 := by
  constructor
  · decide
  · decide

/-- C3: the pagination loop starts at most `max_pages` pages; with every
server body holding at most `K` records the returned dataframe has at
most `max_pages * K` rows; a fetched page with no records stops the loop
at once, as does reaching the reported page count; and fuel beyond
`max_pages` never changes the run (the loop terminates within
`max_pages` iterations). -/
theorem load_data_pagination_bounded (S : Nat → Nat → AttemptResp)
    (parse : String → Option Int) (maxPages K : Nat)
    (hK : ∀ p i st b, S p i = .resp st (some b) → b.dataKey.length ≤ K) :
    numPageStarts (load_data S parse maxPages).2 ≤ maxPages
    ∧ (∀ rows, (load_data S parse maxPages).1 = .frame rows →
        rows.length ≤ maxPages * K)
    ∧ (∀ page acc fuel pj evs, page ≤ maxPages →
        fetch_page (S page) page = (.success (some pj), evs) →
        pj.dataKey = [] →
        load_data_loop S maxPages page acc (fuel + 1) = (.done acc, evs))
    ∧ (∀ page acc fuel pj evs, page ≤ maxPages →
        fetch_page (S page) page = (.success (some pj), evs) →
        pj.dataKey ≠ [] → pj.getPages ≤ page →
        load_data_loop S maxPages page acc (fuel + 1)
          = (.done (acc ++ pj.dataKey.map itemToRow), evs))
    ∧ (∀ k, load_data_loop S maxPages 1 [] maxPages
        = load_data_loop S maxPages 1 [] (maxPages + k)) := by
  refine ⟨?_, ?_, ?_, ?_, ?_⟩
  · exact load_data_loop_numPageStarts S maxPages maxPages 1 []
  · intro rows h
    have h2 : finishFrame parse (load_data_loop S maxPages 1 [] maxPages).1
        = .frame rows := h
    cases hr : (load_data_loop S maxPages 1 [] maxPages).1 with
    | done rows2 =>
      have hlen := load_data_loop_done_length S maxPages K hK maxPages 1 [] rows2 hr
      rw [hr, finishFrame] at h2
      have h3 := (LoadResult.frame.inj h2).symm
      by_cases hre : rows2.isEmpty
      · rw [if_pos hre] at h3
        rw [h3]
        simp
      · rw [if_neg hre] at h3
        rw [h3]
        simp only [List.length_map, List.length_nil] at hlen ⊢
        omega
    | errEmpty =>
      rw [hr, finishFrame] at h2
      have h3 := (LoadResult.frame.inj h2).symm
      rw [h3]
      simp
    | raised =>
      rw [hr] at h2
      simp [finishFrame] at h2
  · intro page acc fuel pj evs hpage hf hempty
    have hpg : ¬maxPages < page := by omega
    rw [load_data_loop_succ_page S maxPages page acc fuel hpg pj evs (Or.inl hf),
      if_pos (by simp [hempty] : pj.dataKey.isEmpty = true)]
  · intro page acc fuel pj evs hpage hf hne hpp
    have hpg : ¬maxPages < page := by omega
    rw [load_data_loop_succ_page S maxPages page acc fuel hpg pj evs (Or.inl hf),
      if_neg (by simp [List.isEmpty_iff]; exact hne), if_pos hpp]
  · intro k
    exact load_data_loop_fuel_stable S maxPages maxPages k 1 [] (by omega)

/-- C8: when a page fetch ends with a non-429 HTTP error or a
connection-level exception, the loop returns the empty dataframe
immediately, discarding whatever rows had been accumulated, and
`load_data` then returns an empty frame. -/
theorem load_data_error_discards_accum (S : Nat → Nat → AttemptResp)
    (maxPages page : Nat) (acc : List Row) (fuel : Nat)
    (h1 : page ≤ maxPages) (h2 : 0 < fuel)
    (h3 : (fetch_page (S page) page).1 = .httpErr
        ∨ (fetch_page (S page) page).1 = .connErr) :
    (load_data_loop S maxPages page acc fuel).1 = .errEmpty
    ∧ ∀ parse : String → Option Int,
        (load_data_loop S maxPages 1 [] maxPages).1 = .errEmpty →
        (load_data S parse maxPages).1 = .frame [] := by
  constructor
  · obtain ⟨f2, rfl⟩ : ∃ f2, fuel = f2 + 1 := ⟨fuel - 1, by omega⟩
    have hpg : ¬maxPages < page := by omega
    rcases h3 with h3 | h3
    · have hf : fetch_page (S page) page
          = (.httpErr, (fetch_page (S page) page).2) := by rw [← h3]
      rw [load_data_loop_succ_err S maxPages page acc f2 hpg _ (Or.inl hf)]
    · have hf : fetch_page (S page) page
          = (.connErr, (fetch_page (S page) page).2) := by rw [← h3]
      rw [load_data_loop_succ_err S maxPages page acc f2 hpg _ (Or.inr hf)]
  · intro parse hdone
    have h4 : (load_data S parse maxPages).1
        = finishFrame parse (load_data_loop S maxPages 1 [] maxPages).1 := rfl
    rw [h4, hdone]
    rfl

/-- C9: pressing the filter button with a keyword shorter than 3
characters shows an error and never calls `load_data`; `load_data` is
called exactly when the keyword has at least 3 characters. -/
theorem apply_filters_keyword_gate (ys : YearSel) (kw bf : String) :
    (kw.length < 3 → applyFiltersAction ys kw bf = .showError)
    ∧ ((∃ y s b, applyFiltersAction ys kw bf = .callLoadData y s b)
        ↔ 3 ≤ kw.length) := by
  constructor
  · intro h
    rw [applyFiltersAction.eq_def, if_pos h]
  · constructor
    · rintro ⟨y, s, b, h⟩
      by_contra hlen
      rw [applyFiltersAction.eq_def, if_pos (by omega)] at h
      exact AppAction.noConfusion h
    · intro h
      rw [applyFiltersAction.eq_def, if_neg (by omega)]
      exact ⟨_, kw, _, rfl⟩

/-- C5: the cleaning step (source lines 252-258) removes exactly the
rows with a null `Monto` or `Tipo_Contratacion` and the later duplicates
of each id: every surviving row is non-null in both columns, surviving
ids are pairwise distinct, the survivors are a sublist of the input
(rows are never altered), every id surviving the null filter is still
represented, and the first non-null row bearing each id is kept. -/
theorem cleaning_removes_exactly (rows : List CleanRow) :
    (∀ r ∈ cleanStep rows, r.Monto ≠ none ∧ r.Tipo_Contratacion ≠ none)
    ∧ (cleanStep rows).Pairwise (fun a b => a.ID ≠ b.ID)
    ∧ List.Sublist (cleanStep rows) rows
    ∧ (∀ x ∈ dropna_Monto_Tipo rows, ∃ y, y ∈ cleanStep rows ∧ y.ID = x.ID)
    ∧ (∀ f1 x f2, dropna_Monto_Tipo rows = f1 ++ x :: f2 →
        (∀ y ∈ f1, y.ID ≠ x.ID) → x ∈ cleanStep rows) := by
  refine ⟨?_, ?_, ?_, ?_, ?_⟩
  · intro r hr
    have hsub := dedupGo_sublist (dropna_Monto_Tipo rows) []
    have hmem : r ∈ dropna_Monto_Tipo rows := hsub.subset hr
    have h2 := List.of_mem_filter hmem
    simp only [keepRow, Bool.and_eq_true, Option.isSome_iff_ne_none] at h2
    exact h2
  · exact dedupGo_pairwise _ []
  · exact (dedupGo_sublist _ []).trans (List.filter_sublist rows)
  · intro x hx
    exact dedupGo_covers _ [] x hx (by simp)
  · intro f1 x f2 heq hne
    rw [cleanStep, drop_duplicates_by_ID, heq]
    exact dedupGo_keeps_first f1 x f2 [] hne (by simp)

/-- C4: every non-empty dataframe `load_data` returns is the image of the
raw rows under the column coercions (so `Date` is datetime with `NaT` for
unparseable dates, `Tipo de Contratación` is title-cased and
`Provincia / Buyer` upper-cased), and every row surviving the cleaning
step is the image of a fetched row under the `Monto` numeric coercion,
with both `Monto` and `Tipo_Contratacion` non-null, so the later
aggregations consume only coerced cells. -/
theorem dataframe_column_types_coerced (parse : String → Option Int) :
    (∀ (S : Nat → Nat → AttemptResp) (mp : Nat) (rows : List CRow),
        (load_data S parse mp).1 = .frame rows → rows ≠ [] →
        ∃ raws : List Row, rows = raws.map (coerceRow parse))
    ∧ (∀ (rows : List CRow) (r : CleanRow), r ∈ moduleClean rows →
        ∃ c, c ∈ rows ∧ r = toCleanRow c)
    ∧ (∀ (rows : List CRow) (r : CleanRow), r ∈ moduleClean rows →
        r.Monto ≠ none ∧ r.Tipo_Contratacion ≠ none) := by
  refine ⟨?_, ?_, ?_⟩
  · intro S mp rows h hne
    have h2 : finishFrame parse (load_data_loop S mp 1 [] mp).1 = .frame rows := h
    cases hr : (load_data_loop S mp 1 [] mp).1 with
    | done rows2 =>
      rw [hr, finishFrame] at h2
      have h3 := (LoadResult.frame.inj h2).symm
      by_cases hre : rows2.isEmpty
      · rw [if_pos hre] at h3
        exact absurd h3 hne
      · rw [if_neg hre] at h3
        exact ⟨rows2, h3⟩
    | errEmpty =>
      rw [hr, finishFrame] at h2
      have h3 := (LoadResult.frame.inj h2).symm
      exact absurd h3 hne
    | raised =>
      rw [hr] at h2
      simp [finishFrame] at h2
  · intro rows r hr
    have hsub := dedupGo_sublist (dropna_Monto_Tipo (rows.map toCleanRow)) []
    have hm1 : r ∈ dropna_Monto_Tipo (rows.map toCleanRow) := hsub.subset hr
    have hm2 : r ∈ rows.map toCleanRow := (List.filter_sublist _).subset hm1
    obtain ⟨c, hc, hce⟩ := List.mem_map.mp hm2
    exact ⟨c, hc, hce.symm⟩
  · intro rows r hr
    have hsub := dedupGo_sublist (dropna_Monto_Tipo (rows.map toCleanRow)) []
    have hm1 : r ∈ dropna_Monto_Tipo (rows.map toCleanRow) := hsub.subset hr
    have h2 := List.of_mem_filter hm1
    simp only [keepRow, Bool.and_eq_true, Option.isSome_iff_ne_none] at h2
    exact h2

/-- C6: when every page fetch succeeds, the dataframe `load_data`
returns consists of exactly one row per JSON record of the processed
pages — built by the fixed fifteen-column mapping and then coerced — in
page order and, within a page, in the order the API returned the
records. -/
theorem load_data_assembles_rows_in_order (S : Nat → Nat → AttemptResp)
    (B : Nat → PageJson) (parse : String → Option Int) (maxPages : Nat)
    (hS : ∀ p, (fetch_page (S p) p).1 = .success (some (B p))) :
    (load_data S parse maxPages).1
      = .frame ((specAssembledRows B maxPages 1 maxPages).map (coerceRow parse)) := by
  have h1 : (load_data S parse maxPages).1
      = finishFrame parse (load_data_loop S maxPages 1 [] maxPages).1 := rfl
  rw [h1, load_data_loop_success_rows S B maxPages hS maxPages 1 [], finishFrame]
  simp only [List.nil_append]
  by_cases he : (specAssembledRows B maxPages 1 maxPages).isEmpty
  · rw [if_pos he]
    have h2 : specAssembledRows B maxPages 1 maxPages = [] := by
      simpa using he
    rw [h2]
    rfl
  · rw [if_neg he]

/-- C7: a request for a further page is only ever issued right after the
fixed 1.5 s between-pages pause: in the whole event trace of `load_data`,
every first-attempt request for a page past the first is immediately
preceded by `sleep 15` (1.5 s in tenths). -/
theorem load_data_sleeps_before_next_page (S : Nat → Nat → AttemptResp)
    (parse : String → Option Int) (maxPages p : Nat) (hp : 2 ≤ p)
    (hmem : Event.request p 0 ∈ (load_data S parse maxPages).2) :
    ∃ t1 t2, (load_data S parse maxPages).2
      = t1 ++ Event.sleep 15 :: Event.request p 0 :: t2 := by
  have h1 : (load_data S parse maxPages).2
      = (load_data_loop S maxPages 1 [] maxPages).2 := rfl
  rw [h1] at hmem ⊢
  exact load_data_loop_paced S maxPages maxPages 1 [] p (by omega) hmem

/-- An attempt oracle that answers 429 with body `bodyA` every time. -/
def attempts429 : Nat → AttemptResp := fun _ => .resp 429 (some bodyA)

/-- A one-record page body reporting two pages in total. -/
def bodyB : PageJson := { dataKey := [itemA], pagesKey := some 2 }

/-- A server that always succeeds with `bodyB`. -/
def serverTwo : Nat → Nat → AttemptResp := fun _ _ => .resp 200 (some bodyB)

/-- The page bodies `serverTwo` serves. -/
def pagesB : Nat → PageJson := fun _ => bodyB

/-- A server that always succeeds with the single-page body `bodyA`. -/
def serverOne : Nat → Nat → AttemptResp := fun _ _ => .resp 200 (some bodyA)

/-- A server that always answers HTTP 500. -/
def serverErr500 : Nat → Nat → AttemptResp := fun _ _ => .resp 500 none

/-- A cleaned-typed row with null `Monto` and `Tipo_Contratacion`. -/
def crNull : CleanRow :=
  { ID := .jstr ("x"), OCID := .jnull, Date := none, Year := .jnull
    Month := .jnull, Method := .jnull, Tipo_Contratacion := none
    Provincia := none, Localidad := .jnull, Region := .jnull
    Proveedores := .jnull, Monto := none, Titulo := .jnull
    Descripcion := .jnull, Presupuesto := .jnull }

/-- A non-null cleaned-typed row with id a. -/
def crA : CleanRow :=
  { ID := .jstr ("a"), OCID := .jnull, Date := none, Year := .jnull
    Month := .jnull, Method := .jnull, Tipo_Contratacion := some ("Obra")
    Provincia := none, Localidad := .jnull, Region := .jnull
    Proveedores := .jnull, Monto := some 5, Titulo := .jnull
    Descripcion := .jnull, Presupuesto := .jnull }

/-- A second non-null row sharing the id of `crA`. -/
def crA2 : CleanRow :=
  { ID := .jstr ("a"), OCID := .jnull, Date := none, Year := .jnull
    Month := .jnull, Method := .jnull, Tipo_Contratacion := some ("Bien")
    Provincia := none, Localidad := .jnull, Region := .jnull
    Proveedores := .jnull, Monto := some 7, Titulo := .jnull
    Descripcion := .jnull, Presupuesto := .jnull }

/-- A short keyword. -/
def kwAB : String := "ab"

/-- An empty buyer filter. -/
def bfEmpty : String := ""

/-- Witness for C2 at a concrete all-429 oracle: the 429 on attempt 0
leads to a retry, attempt 1. -/
theorem load_data_retry_429_policy_witness :
    Event.request 1 1 ∈ (fetch_page attempts429 1).2 :=
  ((load_data_retry_429_policy attempts429 1).2.1 0 (some bodyA) (by omega)
    (fun j hj => absurd hj (by omega)) rfl).2 (by omega)

/-- Witness for C3 at a concrete server whose bodies hold one record. -/
theorem load_data_pagination_bounded_witness :
    numPageStarts (load_data serverAll429 parse0 10).2 ≤ 10 :=
  (load_data_pagination_bounded serverAll429 parse0 10 1 (by
    intro p i st b h
    injection h with h1 h2
    injection h2 with h3
    rw [← h3]
    decide)).1

/-- Witness for C4 at a concrete one-page run. -/
theorem dataframe_column_types_coerced_witness :
    ∃ raws : List Row,
      [coerceRow parse0 (itemToRow itemA)] = raws.map (coerceRow parse0) :=
  (dataframe_column_types_coerced parse0).1 serverOne 10
    [coerceRow parse0 (itemToRow itemA)] (by decide) (by decide)

/-- Witness for C5 at a concrete list: the first non-null row with id a
survives the cleaning step. -/
theorem cleaning_removes_exactly_witness : crA ∈ cleanStep [crNull, crA, crA2] :=
  (cleaning_removes_exactly [crNull, crA, crA2]).2.2.2.2 [] crA [crA2]
    (by decide) (fun y hy => absurd hy (by simp))

/-- Witness for C6 at a concrete two-page run. -/
theorem load_data_assembles_rows_in_order_witness :
    (load_data serverTwo parse0 10).1
      = .frame ((specAssembledRows pagesB 10 1 10).map (coerceRow parse0)) :=
  load_data_assembles_rows_in_order serverTwo pagesB parse0 10 (fun _ => rfl)

/-- Witness for C7 at a concrete two-page run: the request for page 2
comes right after the 1.5 s pause. -/
theorem load_data_sleeps_before_next_page_witness :
    ∃ t1 t2, (load_data serverTwo parse0 10).2
      = t1 ++ Event.sleep 15 :: Event.request 2 0 :: t2 :=
  load_data_sleeps_before_next_page serverTwo parse0 10 2 (by omega) (by decide)

/-- Witness for C8 at a concrete HTTP-500 server with a non-empty
accumulator. -/
theorem load_data_error_discards_accum_witness :
    (load_data_loop serverErr500 10 1 [itemToRow itemA] 10).1 = .errEmpty :=
  (load_data_error_discards_accum serverErr500 10 1 [itemToRow itemA] 10
    (by omega) (by omega) (Or.inl (by decide))).1

/-- Witness for C9 at a concrete two-character keyword. -/
theorem apply_filters_keyword_gate_witness :
    applyFiltersAction YearSel.todos kwAB bfEmpty = .showError :=
  (apply_filters_keyword_gate YearSel.todos kwAB bfEmpty).1 (by decide)
